import Mathlib

/-!
Verification of the `crewai_a2a_settlement` transcript and escrow-client
subsystems, as a shallow embedding in Lean 4.

Conventions of the embedding:

* Python strings are modelled as `List Char` (sequences of Unicode code
  points); `"…".data` builds concrete values.
* Python dicts appearing as JSON payloads are modelled by the inductive
  `Json` type below, with object members kept in insertion order (dict
  keys are strings, as everywhere in this code base).
* `json.dumps` is modelled by `dumps` (default separators, `ensure_ascii`
  behaviour, optional `sort_keys`); sorting the keys at dump time is
  realised as a deep key-sorting pass followed by the plain serializer,
  which produces the same text.
* SHA-256 (`hashlib.sha256(x.encode("utf-8")).hexdigest()`) is implemented
  in full over `Nat` byte lists (`sha256Bytes`, `hash_transcript`).
* Machine floats that hold amounts are modelled as `ℚ`; the concrete
  amounts in the claims (10, 20, 5) are exactly representable, so no
  rounding behaviour is involved.
* Exceptions become `Except` values; the time of day, the generated UUID
  and the HTTP transport are passed in as explicit parameters.
-/

/-! ## Text utilities -/

/-- Lower-casing of one character as it acts on the ASCII range, embedding
the effect of `re.IGNORECASE` on the (all-ASCII) forbidden phrases. -/
def asciiLower (c : Char) : Char :=
  if 'A' ≤ c ∧ c ≤ 'Z' then Char.ofNat (c.toNat + 32) else c

/-- Lower-case a whole string. -/
def lowerStr (s : List Char) : List Char := s.map asciiLower

/-- Python string comparison `a <= b`: lexicographic on code points. -/
def strLe : List Char → List Char → Bool
  | [], _ => true
  | _ :: _, [] => false
  | a :: as, b :: bs =>
    if a.toNat < b.toNat then true
    else if b.toNat < a.toNat then false
    else strLe as bs

/-- Insert into a `strLe`-sorted list, keeping it sorted. -/
def insertStr (a : List Char) : List (List Char) → List (List Char)
  | [] => [a]
  | b :: bs => if strLe b a then b :: insertStr a bs else a :: b :: bs

/-- Sorting with `strLe`: the result of Python's `sorted` on strings. -/
def sortStr : List (List Char) → List (List Char)
  | [] => []
  | a :: as => insertStr a (sortStr as)

/-! ## JSON values and `json.dumps` -/

/-- A JSON value as produced by the Python code: dict members are kept in
insertion order and keys are strings.  Numbers are restricted to the
integers (no float ever enters a serialized payload in this code base). -/
inductive Json where
  | null : Json
  | bool (b : Bool) : Json
  | num (n : Int) : Json
  | str (s : List Char) : Json
  | arr (xs : List Json) : Json
  | obj (kvs : List (List Char × Json)) : Json

/-- The opening-brace character, written via its code point. -/
def lbrace : Char := Char.ofNat 123

/-- The closing-brace character, written via its code point. -/
def rbrace : Char := Char.ofNat 125

/-- One lowercase hexadecimal digit. -/
def hexDigitChar (n : Nat) : Char :=
  if n < 10 then Char.ofNat (48 + n) else Char.ofNat (87 + n)

/-- Four lowercase hex digits, as in a JSON `\uXXXX` escape. -/
def hex4 (n : Nat) : List Char :=
  [hexDigitChar (n / 4096 % 16), hexDigitChar (n / 256 % 16),
   hexDigitChar (n / 16 % 16), hexDigitChar (n % 16)]

/-- Escape one character the way `json.dumps` with `ensure_ascii=True`
does: the two-character shortcuts, printable ASCII kept literal, and
everything else as `\uXXXX` (with a surrogate pair beyond the BMP). -/
def jsonEscapeChar (c : Char) : List Char :=
  let n := c.toNat
  if c = '"' then ['\\', '"']
  else if c = '\\' then ['\\', '\\']
  else if n = 8 then ['\\', 'b']
  else if n = 9 then ['\\', 't']
  else if n = 10 then ['\\', 'n']
  else if n = 12 then ['\\', 'f']
  else if n = 13 then ['\\', 'r']
  else if 32 ≤ n ∧ n ≤ 126 then [c]
  else if n < 65536 then '\\' :: 'u' :: hex4 n
  else
    '\\' :: 'u' :: hex4 (55296 + (n - 65536) / 1024) ++
      ('\\' :: 'u' :: hex4 (56320 + (n - 65536) % 1024))

/-- A JSON string literal: quotes around the escaped characters. -/
def jsonQuote (s : List Char) : List Char :=
  '"' :: (s.flatMap jsonEscapeChar ++ ['"'])

/-- Decimal representation of an integer, as Python prints it. -/
def intRepr (n : Int) : List Char :=
  if n < 0 then '-' :: Nat.toDigits 10 (-n).toNat else Nat.toDigits 10 n.toNat

mutual

/-- Serialize one JSON value with the default `json.dumps` separators
`", "` and `": "`, keys in the order they sit in the value. -/
def dumpsVal : Json → List Char
  | .null => 'n' :: 'u' :: 'l' :: 'l' :: []
  | .bool true => 't' :: 'r' :: 'u' :: 'e' :: []
  | .bool false => 'f' :: 'a' :: 'l' :: 's' :: 'e' :: []
  | .num n => intRepr n
  | .str s => jsonQuote s
  | .arr xs => '[' :: (dumpsArr xs ++ [']'])
  | .obj kvs => lbrace :: (dumpsMembers kvs ++ [rbrace])

/-- Serialize array elements, `", "`-separated. -/
def dumpsArr : List Json → List Char
  | [] => []
  | [x] => dumpsVal x
  | x :: y :: rest => dumpsVal x ++ (',' :: ' ' :: dumpsArr (y :: rest))

/-- Serialize object members, `", "`-separated, `": "` after each key. -/
def dumpsMembers : List (List Char × Json) → List Char
  | [] => []
  | [(k, v)] => jsonQuote k ++ (':' :: ' ' :: dumpsVal v)
  | (k, v) :: m :: rest =>
    jsonQuote k ++ (':' :: ' ' :: dumpsVal v) ++ (',' :: ' ' :: dumpsMembers (m :: rest))

end

/-- Insert a key-value pair into a list of members sorted by key. -/
def insertMember (a : List Char × Json) :
    List (List Char × Json) → List (List Char × Json)
  | [] => [a]
  | b :: bs => if strLe b.1 a.1 then b :: insertMember a bs else a :: b :: bs

/-- Sort object members by key, as `sort_keys=True` does (dict keys are
distinct, so sorting the pairs and sorting by key coincide). -/
def sortMembers : List (List Char × Json) → List (List Char × Json)
  | [] => []
  | a :: as => insertMember a (sortMembers as)

mutual

/-- Recursively sort every object's members by key. -/
def sortKeysDeep : Json → Json
  | .obj kvs => .obj (sortMembers (sortKeysPairs kvs))
  | .arr xs => .arr (sortKeysList xs)
  | j => j

/-- The map of `sortKeysDeep` over array elements. -/
def sortKeysList : List Json → List Json
  | [] => []
  | x :: rest => sortKeysDeep x :: sortKeysList rest

/-- The map of `sortKeysDeep` over object member values. -/
def sortKeysPairs : List (List Char × Json) → List (List Char × Json)
  | [] => []
  | (k, v) :: rest => (k, sortKeysDeep v) :: sortKeysPairs rest

end

/-- The model of `json.dumps(v, sort_keys=sk, ensure_ascii=True)`. -/
def dumps (sortKeys : Bool) (j : Json) : List Char :=
  dumpsVal (if sortKeys then sortKeysDeep j else j)

/-! ## UTF-8 and SHA-256 (`hashlib.sha256(text.encode("utf-8")).hexdigest()`) -/

/-- UTF-8 encoding of one code point, as a list of byte values. -/
def charUtf8 (c : Char) : List Nat :=
  let n := c.toNat
  if n < 128 then [n]
  else if n < 2048 then [192 + n / 64, 128 + n % 64]
  else if n < 65536 then [224 + n / 4096, 128 + n / 64 % 64, 128 + n % 64]
  else [240 + n / 262144, 128 + n / 4096 % 64, 128 + n / 64 % 64, 128 + n % 64]

/-- UTF-8 encoding of a string. -/
def utf8Bytes (s : List Char) : List Nat := s.flatMap charUtf8

/-- Truncation to a 32-bit word. -/
def w32 (n : Nat) : Nat := n % 4294967296

/-- Right rotation of a 32-bit word. -/
def rotr (x n : Nat) : Nat := w32 ((x >>> n) ||| (x <<< (32 - n)))

/-- Bitwise complement of a 32-bit word. -/
def not32 (x : Nat) : Nat := 4294967295 - w32 x

/-- SHA-256 `Ch(x, y, z)`. -/
def shaCh (x y z : Nat) : Nat := (x &&& y) ^^^ (not32 x &&& z)

/-- SHA-256 `Maj(x, y, z)`. -/
def shaMaj (x y z : Nat) : Nat := (x &&& y) ^^^ (x &&& z) ^^^ (y &&& z)

/-- SHA-256 `Σ0`. -/
def bigSigma0 (x : Nat) : Nat := rotr x 2 ^^^ rotr x 13 ^^^ rotr x 22

/-- SHA-256 `Σ1`. -/
def bigSigma1 (x : Nat) : Nat := rotr x 6 ^^^ rotr x 11 ^^^ rotr x 25

/-- SHA-256 `σ0`. -/
def smallSigma0 (x : Nat) : Nat := rotr x 7 ^^^ rotr x 18 ^^^ (x >>> 3)

/-- SHA-256 `σ1`. -/
def smallSigma1 (x : Nat) : Nat := rotr x 17 ^^^ rotr x 19 ^^^ (x >>> 10)

/-- The 64 SHA-256 round constants (FIPS 180-4), written in decimal:
the fractional parts of the cube roots of the first 64 primes, scaled by
two to the 32. -/
def shaK : List Nat :=
  [1116352408, 1899447441, 3049323471, 3921009573,
   961987163, 1508970993, 2453635748, 2870763221,
   3624381080, 310598401, 607225278, 1426881987,
   1925078388, 2162078206, 2614888103, 3248222580,
   3835390401, 4022224774, 264347078, 604807628,
   770255983, 1249150122, 1555081692, 1996064986,
   2554220882, 2821834349, 2952996808, 3210313671,
   3336571891, 3584528711, 113926993, 338241895,
   666307205, 773529912, 1294757372, 1396182291,
   1695183700, 1986661051, 2177026350, 2456956037,
   2730485921, 2820302411, 3259730800, 3345764771,
   3516065817, 3600352804, 4094571909, 275423344,
   430227734, 506948616, 659060556, 883997877,
   958139571, 1322822218, 1537002063, 1747873779,
   1955562222, 2024104815, 2227730452, 2361852424,
   2428436474, 2756734187, 3204031479, 3329325298]

/-- The eight working variables of the SHA-256 compression function. -/
structure Sha8 where
  a : Nat
  b : Nat
  c : Nat
  d : Nat
  e : Nat
  f : Nat
  g : Nat
  h : Nat

/-- SHA-256 initial hash value (FIPS 180-4), in decimal: the fractional
parts of the square roots of the first 8 primes, scaled by two to the
32. -/
def shaInit : Sha8 :=
  ⟨1779033703, 3144134277, 1013904242, 2773480762,
   1359893119, 2600822924, 528734635, 1541459225⟩

/-- The `n`-byte big-endian representation of a number. -/
def natBE (k n : Nat) : List Nat :=
  (List.range k).map (fun i => n / 2 ^ (8 * (k - 1 - i)) % 256)

/-- SHA-256 padding: a `0x80` byte, zeros, and the 64-bit bit length. -/
def shaPad (msg : List Nat) : List Nat :=
  let L := msg.length
  msg ++ (128 :: List.replicate ((64 - (L + 9) % 64) % 64) 0) ++ natBE 8 (8 * L)

/-- Split into 64-byte blocks, with a structural fuel so the kernel can
evaluate it; `fuel` bounds the number of blocks still to cut. -/
def toBlocksGo : Nat → List Nat → List (List Nat)
  | 0, _ => []
  | _, [] => []
  | fuel + 1, a :: l => (a :: l).take 64 :: toBlocksGo fuel ((a :: l).drop 64)

/-- Split a byte list into 64-byte blocks (the length is fuel enough,
since every step consumes at least one byte). -/
def toBlocks (l : List Nat) : List (List Nat) := toBlocksGo l.length l

/-- Big-endian 32-bit words from bytes. -/
def bytesToWords : List Nat → List Nat
  | a :: b :: c :: d :: rest => (((a * 256 + b) * 256 + c) * 256 + d) :: bytesToWords rest
  | _ => []

/-- One extension step of the SHA-256 message schedule. -/
def scheduleStep (w : List Nat) : List Nat :=
  w ++ [w32 (smallSigma1 (w.getD (w.length - 2) 0) + w.getD (w.length - 7) 0 +
             smallSigma0 (w.getD (w.length - 15) 0) + w.getD (w.length - 16) 0)]

/-- Iterate `scheduleStep` to extend 16 words to 64. -/
def scheduleGo : List Nat → Nat → List Nat
  | w, 0 => w
  | w, n + 1 => scheduleGo (scheduleStep w) n

/-- One SHA-256 round; `kw` is `K[t] + W[t]`. -/
def shaRound (s : Sha8) (kw : Nat) : Sha8 :=
  let t1 := w32 (s.h + bigSigma1 s.e + shaCh s.e s.f s.g + kw)
  let t2 := w32 (bigSigma0 s.a + shaMaj s.a s.b s.c)
  ⟨w32 (t1 + t2), s.a, s.b, s.c, w32 (s.d + t1), s.e, s.f, s.g⟩

/-- Compress one 64-byte block into the running hash value. -/
def compressBlock (h0 : Sha8) (block : List Nat) : Sha8 :=
  let w := scheduleGo (bytesToWords block) 48
  let s := (List.zipWith (fun k wt => w32 (k + wt)) shaK w).foldl shaRound h0
  ⟨w32 (h0.a + s.a), w32 (h0.b + s.b), w32 (h0.c + s.c), w32 (h0.d + s.d),
   w32 (h0.e + s.e), w32 (h0.f + s.f), w32 (h0.g + s.g), w32 (h0.h + s.h)⟩

/-- SHA-256 digest of a byte list, as 32 bytes. -/
def sha256Bytes (msg : List Nat) : List Nat :=
  let s := (toBlocks (shaPad msg)).foldl compressBlock shaInit
  [s.a, s.b, s.c, s.d, s.e, s.f, s.g, s.h].flatMap (natBE 4)

/-- Lowercase hex of a byte list. -/
def bytesToHex (bs : List Nat) : List Char :=
  bs.flatMap (fun b => [hexDigitChar (b / 16), hexDigitChar (b % 16)])

/-- Model of `hash_transcript` from `transcript.py`: the SHA-256 hex digest of the
UTF-8 encoding of the given JSON string. -/
def hash_transcript (transcript_json : List Char) : List Char :=
  bytesToHex (sha256Bytes (utf8Bytes transcript_json))

/-! ## Transcript data model (`models.py`) -/

/-- One dialogue turn (`NegotiationEntry` in `models.py`).  Metadata is an
optional dict; `none` models Python `None`. -/
structure NegotiationEntry where
  speaker : List Char
  role : List Char
  message : List Char
  timestamp : List Char
  metadata : Option (List (List Char × Json))

/-- The hashed output artifact (`NegotiationTranscript` in `models.py`). -/
structure NegotiationTranscript where
  session_id : List Char
  participants : List (List Char)
  entries : List NegotiationEntry
  compromise : List (List Char × Json)
  created_at : List Char
  transcript_hash : List Char
  transcript_json : List Char

/-! ## Authority guard (`transcript.py`) -/

/-- The fixed forbidden list from `transcript.py`. -/
def FORBIDDEN_PHRASES : List (List Char) :=
  ["Settlement Approved".data, "settlement approved".data, "SETTLEMENT APPROVED".data,
   "Execute Settlement".data, "execute settlement".data, "EXECUTE SETTLEMENT".data,
   "Approve Payment".data, "approve payment".data, "APPROVE PAYMENT".data,
   "Release Funds".data, "release funds".data, "RELEASE FUNDS".data]

/-- Case-insensitive occurrence, embedding a search with the compiled
`re.IGNORECASE` alternation `_FORBIDDEN_PATTERN`: phrase `p` occurs
somewhere in `text` up to ASCII case. -/
def occursCI (p text : List Char) : Prop := lowerStr p <:+: lowerStr text

instance (p text : List Char) : Decidable (occursCI p text) := by
  unfold occursCI
  exact inferInstance

/-- The phrase reported for a matching text.  The source reports
`match.group()`, the leftmost matched substring; the model reports the
first listed phrase that occurs case-insensitively.  Both are defined
exactly when a forbidden phrase occurs, and both name a forbidden phrase
present in the text up to case. -/
def firstForbidden (text : List Char) : Option (List Char) :=
  FORBIDDEN_PHRASES.find? (fun p => decide (occursCI p text))

/-- Model of `TranscriptValidationError`, with the data its message carries: the
offending entry index and speaker, or the compromise, plus the phrase. -/
inductive TranscriptValidationError where
  | entryPhrase (idx : Nat) (speaker : List Char) (phrase : List Char)
  | compromisePhrase (phrase : List Char)

/-- The entry loop of `validate_no_execution_authority`. -/
def scanEntries (idx : Nat) : List NegotiationEntry →
    Option TranscriptValidationError
  | [] => none
  | e :: rest =>
    match firstForbidden e.message with
    | some p => some (.entryPhrase idx e.speaker p)
    | none => scanEntries (idx + 1) rest

/-- Model of `validate_no_execution_authority(entries, compromise)`: scan every
entry message, then `json.dumps(compromise)` (insertion order, no key
sorting), failing on the first match. -/
def validate_no_execution_authority (entries : List NegotiationEntry)
    (compromise : List (List Char × Json)) :
    Except TranscriptValidationError Unit :=
  match scanEntries 0 entries with
  | some err => .error err
  | none =>
    match firstForbidden (dumps false (.obj compromise)) with
    | some p => .error (.compromisePhrase p)
    | none => .ok ()

/-! ## Transcript builder (`transcript.py`) -/

/-- The JSON object for one entry inside the canonical dict
(`_build_canonical_dict`): `e.metadata or {}` collapses `None` and the
empty dict to the empty object, and keeps a non-empty dict. -/
def entryJson (e : NegotiationEntry) : Json :=
  .obj [("message".data, .str e.message),
        ("metadata".data, .obj (e.metadata.getD [])),
        ("role".data, .str e.role),
        ("speaker".data, .str e.speaker),
        ("timestamp".data, .str e.timestamp)]

/-- Model of `_build_canonical_dict`: the canonical payload dict. -/
def _build_canonical_dict (session_id : List Char)
    (participants : List (List Char)) (entries : List NegotiationEntry)
    (compromise : List (List Char × Json)) (created_at : List Char) : Json :=
  .obj [("compromise".data, .obj compromise),
        ("created_at".data, .str created_at),
        ("entries".data, .arr (entries.map entryJson)),
        ("participants".data, .arr ((sortStr participants).map .str)),
        ("session_id".data, .str session_id),
        ("version".data, .str "1.0".data)]

/-- The failures of `build_transcript`: the `ValueError` on an empty entry
list, or a propagated `TranscriptValidationError`. -/
inductive BuildError where
  | emptyEntries
  | validation (e : TranscriptValidationError)

/-- The resolution `sorted(participants if participants else set of
speakers)` of `build_transcript`: Python truthiness makes an omitted and
an empty `participants` coincide, and `sorted` of the speaker set is the
sorted deduplication of the speaker list. -/
def resolveParticipants (entries : List NegotiationEntry)
    (participants : Option (List (List Char))) : List (List Char) :=
  match participants with
  | some ps => if ps = [] then sortStr (entries.map (·.speaker)).dedup
               else sortStr ps
  | none => sortStr (entries.map (·.speaker)).dedup

/-- The resolution `session_id or str(uuid4())` of `build_transcript`. -/
def resolveSessionId (session_id : Option (List Char))
    (gen_session_id : List Char) : List Char :=
  match session_id with
  | some s => if s = [] then gen_session_id else s
  | none => gen_session_id

/-- Model of `build_transcript(entries, compromise, participants, session_id)`.
The two effectful inputs of the source — `str(uuid4())` and
`datetime.now(timezone.utc).isoformat()` — enter as the explicit
parameters `gen_session_id` and `now_iso`. -/
def build_transcript (entries : List NegotiationEntry)
    (compromise : List (List Char × Json))
    (participants : Option (List (List Char)))
    (session_id : Option (List Char))
    (gen_session_id : List Char) (now_iso : List Char) :
    Except BuildError NegotiationTranscript :=
  if entries.isEmpty then .error .emptyEntries
  else
    let resolved_participants := resolveParticipants entries participants
    let resolved_session_id := resolveSessionId session_id gen_session_id
    match validate_no_execution_authority entries compromise with
    | .error e => .error (.validation e)
    | .ok () =>
      let canonical := _build_canonical_dict resolved_session_id
        resolved_participants entries compromise now_iso
      let transcript_json := dumps true canonical
      let transcript_hash := hash_transcript transcript_json
      .ok ⟨resolved_session_id, resolved_participants, entries, compromise,
           now_iso, transcript_hash, transcript_json⟩

/-- Model of `TranscriptIntegrityError`, with the data its message carries. -/
inductive TranscriptIntegrityError where
  | missingData
  | hashMismatch (stored computed : List Char)

/-- Model of `verify_transcript(transcript)`: missing-data check, then re-hash and
compare. -/
def verify_transcript (t : NegotiationTranscript) :
    Except TranscriptIntegrityError Bool :=
  if t.transcript_json = [] ∨ t.transcript_hash = [] then
    .error .missingData
  else
    let computed := hash_transcript t.transcript_json
    if computed ≠ t.transcript_hash then
      .error (.hashMismatch t.transcript_hash computed)
    else
      .ok true

/-! ## Escrow client (`client.py`): errors and retry helper -/

/-- The exceptions that travel through the client, covering both the typed
`A2ASettlementError` hierarchy and the foreign exceptions the code can
meet: httpx transport failures, `resp.json()` decode failures, and the
`KeyError`/`TypeError` of indexing into a response body.  `network` is
`A2ANetworkError`; the optional cause is the `from last_exc` of the
retry-exhaustion raise (absent for a bare 5xx raise). -/
inductive A2AExc where
  | timeoutExc
  | transportExc
  | jsonDecodeExc
  | keyErrorExc (key : List Char)
  | settlement
  | auth
  | escrowErr
  | releaseErr
  | registration
  | network (cause : Option A2AExc)

/-- The retried class: `httpx.TimeoutException`, `httpx.NetworkError`,
`A2ANetworkError`. -/
def retriable : A2AExc → Bool
  | .timeoutExc => true
  | .transportExc => true
  | .network _ => true
  | _ => false

/-- Model of `isinstance(exc, A2ASettlementError)`: the typed hierarchy. -/
def isA2AErr : A2AExc → Bool
  | .settlement => true
  | .auth => true
  | .escrowErr => true
  | .releaseErr => true
  | .registration => true
  | .network _ => true
  | _ => false

/-- What one run of `_with_retries` did: its outcome, how many times it
called `fn`, and the sleeps it performed in order.  The float arithmetic
`backoff * (2 ** (attempt - 1))` is exact in binary floating point (short
of overflow), so the delays are modelled in `ℚ`. -/
structure RetryTrace (α : Type) where
  result : Except A2AExc α
  calls : Nat
  sleeps : List ℚ

/-- The loop of `_with_retries`: `remaining` counts the attempts the
`for attempt in range(1, retries + 1)` loop still has; falling off the
loop raises `A2ANetworkError(...) from last_exc`.  A non-retriable
exception escapes the `try` unwrapped; a retriable one records the
backoff sleep except after the final attempt. -/
def withRetriesGo (fn : Nat → Except A2AExc α) (retries : Nat) (backoff : ℚ) :
    Nat → Nat → Option A2AExc → RetryTrace α
  | 0, _, lastExc => ⟨.error (.network lastExc), 0, []⟩
  | remaining + 1, attempt, _ =>
    match fn attempt with
    | .ok a => ⟨.ok a, 1, []⟩
    | .error e =>
      if retriable e then
        let rest := withRetriesGo fn retries backoff remaining (attempt + 1) (some e)
        ⟨rest.result, rest.calls + 1,
         (if attempt < retries then [backoff * 2 ^ (attempt - 1)] else []) ++ rest.sleeps⟩
      else ⟨.error e, 1, []⟩

/-- Model of `_with_retries(fn, retries=retries, backoff=backoff)`; `fn k` is
the outcome of the `k`-th call of `fn` (1-based). -/
def _with_retries (fn : Nat → Except A2AExc α) (retries : Nat) (backoff : ℚ) :
    RetryTrace α :=
  withRetriesGo fn retries backoff retries 1 none

/-! ## Escrow client: status translation and operations -/

/-- Model of `_raise_for_status(resp, operation, validation_error_class)`.  Only the
status code decides the outcome; `validation_error_class` is the class
raised for 422 (`None` defaults to `A2AEscrowError`).  `resp.is_success`
is httpx's `200 <= status_code <= 299`. -/
def _raise_for_status (status : Nat)
    (validation_error_class : Option A2AExc) : Except A2AExc Unit :=
  if 200 ≤ status ∧ status ≤ 299 then .ok ()
  else if status = 401 then .error .auth
  else if status = 402 then .error .escrowErr
  else if status = 404 then .error .settlement
  else if status = 409 then .ok ()
  else if status = 422 then .error (validation_error_class.getD .escrowErr)
  else if 500 ≤ status ∧ status < 600 then .error (.network none)
  else .error .settlement

/-- An HTTP response as the client sees it: the status code, and the JSON
body (`none` when `resp.json()` would fail to parse). -/
structure HttpResponse where
  status : Nat
  body : Option Json

/-- What one transport call produced: a response, or an httpx failure. -/
inductive TransportResult where
  | resp (r : HttpResponse)
  | timeout
  | netFail

/-- The `_call` closure shared by the escrow operations: POST, then
`_raise_for_status`, then `resp.json()`. -/
def opCall (validation_error_class : Option A2AExc) (t : TransportResult) :
    Except A2AExc Json :=
  match t with
  | .timeout => .error .timeoutExc
  | .netFail => .error .transportExc
  | .resp r =>
    match _raise_for_status r.status validation_error_class with
    | .error e => .error e
    | .ok () =>
      match r.body with
      | none => .error .jsonDecodeExc
      | some j => .ok j

/-- Python `data[k]` on a response body: the value, a `KeyError` when the
key is absent, and (folded into the same failure) the `TypeError` of
indexing a non-dict with a string. -/
def jsonGetItem (j : Json) (k : List Char) : Except A2AExc Json :=
  match j with
  | .obj kvs =>
    match kvs.find? (fun kv => kv.1 == k) with
    | some kv => .ok kv.2
    | none => .error (.keyErrorExc k)
  | _ => .error (.keyErrorExc k)

/-- Python `data.get(k, d)` on a response body. -/
def jsonGet (j : Json) (k : List Char) (d : Json) : Json :=
  match j with
  | .obj kvs =>
    match kvs.find? (fun kv => kv.1 == k) with
    | some kv => kv.2
    | none => d
  | _ => d

/-- Model of `EscrowReceipt` from `models.py`.  `escrow_id` and `created_at` hold
whatever JSON value the response carried (Python stores them untyped);
`amount` is the caller's float, modelled in `ℚ`. -/
structure EscrowReceipt where
  escrow_id : Json
  task_id : List Char
  payer_address : List Char
  payee_address : List Char
  amount : ℚ
  status : List Char
  created_at : Json

/-- Model of `SettlementResult` from `models.py`; `escrow_id` is the string the
caller passed to `release`/`cancel`. -/
structure SettlementResult where
  escrow_id : List Char
  status : List Char
  tx_hash : Json
  settled_at : Json

/-- The mutable session ledger of `A2ASettlementClient`. -/
structure ClientState where
  _session_receipts : List EscrowReceipt
  _session_results : List SettlementResult

/-- Model of `A2ASettlementClient.escrow(...)`: retries around `_call`, the
`except` ladder re-raising typed errors and wrapping anything else in
`A2AEscrowError`, then — outside the `try` — `data["escrow_id"]` and
`data.get("created_at", "")`, appending the receipt to the ledger.
`transport k` is the response of the `k`-th POST attempt. -/
def escrowOp (st : ClientState) (transport : Nat → TransportResult)
    (retries : Nat) (backoff : ℚ) (payer_address payee_address : List Char)
    (amount : ℚ) (task_id : List Char) :
    Except A2AExc (ClientState × EscrowReceipt) :=
  let attempt := _with_retries (fun k => opCall none (transport k)) retries backoff
  match attempt.result with
  | .error e => .error (if isA2AErr e then e else .escrowErr)
  | .ok data =>
    match jsonGetItem data "escrow_id".data with
    | .error e => .error e
    | .ok eid =>
      let receipt : EscrowReceipt :=
        ⟨eid, task_id, payer_address, payee_address, amount, "escrowed".data,
         jsonGet data "created_at".data (.str [])⟩
      .ok (⟨st._session_receipts ++ [receipt], st._session_results⟩, receipt)

/-- Model of `A2ASettlementClient.release(escrow_id)`: retries around `_call` with
`validation_error_class=A2AReleaseError`, wraps foreign failures in
`A2AReleaseError`, then builds the result from `data.get` and appends it
to the session results.  The receipts list is untouched. -/
def releaseOp (st : ClientState) (transport : Nat → TransportResult)
    (retries : Nat) (backoff : ℚ) (escrow_id : List Char) :
    Except A2AExc (ClientState × SettlementResult) :=
  let attempt := _with_retries (fun k => opCall (some .releaseErr) (transport k))
    retries backoff
  match attempt.result with
  | .error e => .error (if isA2AErr e then e else .releaseErr)
  | .ok data =>
    let result : SettlementResult :=
      ⟨escrow_id, "released".data, jsonGet data "tx_hash".data (.str []),
       jsonGet data "settled_at".data (.str [])⟩
    .ok (⟨st._session_receipts, st._session_results ++ [result]⟩, result)

/-- Model of `A2ASettlementClient.cancel(escrow_id, reason)`: as `releaseOp`, with
status `"cancelled"`; the reason only affects the request payload. -/
def cancelOp (st : ClientState) (transport : Nat → TransportResult)
    (retries : Nat) (backoff : ℚ) (escrow_id : List Char) :
    Except A2AExc (ClientState × SettlementResult) :=
  let attempt := _with_retries (fun k => opCall (some .releaseErr) (transport k))
    retries backoff
  match attempt.result with
  | .error e => .error (if isA2AErr e then e else .releaseErr)
  | .ok data =>
    let result : SettlementResult :=
      ⟨escrow_id, "cancelled".data, jsonGet data "tx_hash".data (.str []),
       jsonGet data "settled_at".data (.str [])⟩
    .ok (⟨st._session_receipts, st._session_results ++ [result]⟩, result)

/-- Model of `SessionSummary` from `models.py` (aggregate fields). -/
structure SessionSummary where
  receipts : List EscrowReceipt
  results : List SettlementResult
  total_escrowed : ℚ
  total_released : ℚ
  total_cancelled : ℚ
  cancelled_count : Nat

/-- Model of `A2ASettlementClient.get_session_receipts()`.  Membership of
`r.escrow_id` in the set of released ids uses Python equality: a string
compares equal only to a string. -/
def get_session_receipts (st : ClientState) : SessionSummary :=
  let released_ids :=
    (st._session_results.filter (fun s => s.status == "released".data)).map
      (·.escrow_id)
  let total_released :=
    ((st._session_receipts.filter (fun r =>
        match r.escrow_id with
        | .str s => released_ids.contains s
        | _ => false)).map (·.amount)).sum
  let cancelled_count :=
    (st._session_results.filter (fun s => s.status == "cancelled".data)).length
  let total_escrowed := (st._session_receipts.map (·.amount)).sum
  ⟨st._session_receipts, st._session_results, total_escrowed, total_released,
   total_escrowed - total_released, cancelled_count⟩

/-! ## Predicates used by the claim statements -/

/-- Faithfulness of a guard error to its input: it names an existing entry
index together with that entry's speaker, or the compromise, and carries a
phrase from the forbidden list that occurs (case-insensitively) in the
named text. -/
def guardErrSound (entries : List NegotiationEntry)
    (compromise : List (List Char × Json)) :
    TranscriptValidationError → Prop
  | .entryPhrase i spk q =>
      ∃ e, entries[i]? = some e ∧ e.speaker = spk ∧
        q ∈ FORBIDDEN_PHRASES ∧ occursCI q e.message
  | .compromisePhrase q =>
      q ∈ FORBIDDEN_PHRASES ∧ occursCI q (dumps false (.obj compromise))

/-- Whether a build outcome is the validation failure of the guard. -/
def failsWithValidation : Except BuildError NegotiationTranscript → Bool
  | .error (.validation _) => true
  | _ => false

/-- Whether an `Except` outcome is a success. -/
def excOk {ε β : Type} : Except ε β → Bool
  | .ok _ => true
  | .error _ => false

/-- Two entries that agree on everything except possibly metadata. -/
def sameCore (e₁ e₂ : NegotiationEntry) : Prop :=
  e₁.speaker = e₂.speaker ∧ e₁.role = e₂.role ∧
    e₁.message = e₂.message ∧ e₁.timestamp = e₂.timestamp

/-- Two entries that agree on everything once metadata is collapsed by
`e.metadata or .x7b.x7d` (so `None` and the empty dict coincide). -/
def metaDefaulted (e₁ e₂ : NegotiationEntry) : Prop :=
  sameCore e₁ e₂ ∧ e₁.metadata.getD [] = e₂.metadata.getD []

/-- The statuses of the stored receipts after a release/cancel outcome
(empty on failure). -/
def receiptStatusesAfter :
    Except A2AExc (ClientState × SettlementResult) → List (List Char)
  | .ok (st, _) => st._session_receipts.map (·.status)
  | .error _ => []

/-! ## Concrete fixtures for witnesses and counterexamples -/

/-- A buyer turn (metadata absent), after the spec's sample scenario. -/
def entryBuyer : NegotiationEntry :=
  ⟨"Shopping Agent".data, "buyer".data, "buyer offers $3/unit".data,
   "2026-02-18T12:00:00+00:00".data, none⟩

/-- A seller turn (metadata an empty dict). -/
def entrySeller : NegotiationEntry :=
  ⟨"Merchant Agent".data, "seller".data, "seller counters $3.50/unit".data,
   "2026-02-18T12:00:05+00:00".data, some []⟩

/-- The sample dialogue. -/
def entriesFix : List NegotiationEntry := [entryBuyer, entrySeller]

/-- The sample compromise. -/
def compromiseFix : List (List Char × Json) :=
  [("status".data, .str "pending_mediator_review".data)]

/-- The sample build timestamp. -/
def nowFix : List Char := "2026-02-18T12:01:00+00:00".data

/-- The sample session id. -/
def sidFix : List Char := "sess-0001".data

/-- The sample build outcome. -/
def builtFix : Except BuildError NegotiationTranscript :=
  build_transcript entriesFix compromiseFix none (some sidFix) [] nowFix

/-- The sample transcript (the successful branch of `builtFix`). -/
def tFix : NegotiationTranscript :=
  match builtFix with
  | .ok t => t
  | .error _ => ⟨[], [], [], [], [], [], []⟩

/-- An entry whose message hides a forbidden phrase in mixed case. -/
def entryForbidden : NegotiationEntry :=
  ⟨"Rogue Agent".data, "seller".data, "fine, just ReLeAsE fUnDs today".data,
   "2026-02-18T12:00:09+00:00".data, none⟩

/-- An entry that smuggles a forbidden phrase only inside metadata. -/
def entryMetaSmuggle : NegotiationEntry :=
  ⟨"Shopping Agent".data, "buyer".data, "deal".data,
   "2026-02-18T12:00:00+00:00".data,
   some [("internal_note".data, .str "Settlement Approved".data)]⟩

/-- The same entry with the metadata dropped. -/
def entryMetaClean : NegotiationEntry :=
  ⟨"Shopping Agent".data, "buyer".data, "deal".data,
   "2026-02-18T12:00:00+00:00".data, none⟩

/-- The entry `entryBuyer` with the empty dict as metadata instead of `None`. -/
def entryBuyerEmptyMeta : NegotiationEntry :=
  ⟨"Shopping Agent".data, "buyer".data, "buyer offers $3/unit".data,
   "2026-02-18T12:00:00+00:00".data, some []⟩

/-- The three-escrow session ledger of the ledger-accuracy scenario:
escrows of 10, 20 and 5; released results for the first two ids and a
cancelled result for the third. -/
def ledgerFix : ClientState :=
  ⟨[⟨.str "e1".data, "t1".data, "p".data, "q".data, 10, "escrowed".data, .str []⟩,
    ⟨.str "e2".data, "t2".data, "p".data, "q".data, 20, "escrowed".data, .str []⟩,
    ⟨.str "e3".data, "t3".data, "p".data, "q".data, 5, "escrowed".data, .str []⟩],
   [⟨"e1".data, "released".data, .str "0xa".data, .str "ts".data⟩,
    ⟨"e2".data, "released".data, .str "0xb".data, .str "ts".data⟩,
    ⟨"e3".data, "cancelled".data, .str "0xc".data, .str "ts".data⟩]⟩

/-- A one-receipt ledger whose escrow is then released. -/
def st7 : ClientState :=
  ⟨[⟨.str "e1".data, "t1".data, "p".data, "q".data, 5, "escrowed".data, .str []⟩],
   []⟩

/-- A transport whose every response is a 200 with a release body. -/
def transport200Release : Nat → TransportResult := fun _ =>
  .resp ⟨200, some (.obj [("tx_hash".data, .str "0xT".data),
                          ("settled_at".data, .str "ts".data)])⟩

/-- The release of `e1` against `st7`. -/
def rel7 : Except A2AExc (ClientState × SettlementResult) :=
  releaseOp st7 transport200Release 3 1 "e1".data

/-- The settlement result that release appends for `e1`. -/
def res7R : SettlementResult :=
  ⟨"e1".data, "released".data, .str "0xT".data, .str "ts".data⟩

/-- The ledger after that release: receipts untouched, result appended. -/
def st7R : ClientState :=
  ⟨[⟨.str "e1".data, "t1".data, "p".data, "q".data, 5, "escrowed".data,
     .str []⟩], [res7R]⟩

/-- A transport whose every response is a 422 with an empty JSON body. -/
def transport422 : Nat → TransportResult := fun _ =>
  .resp ⟨422, some (.obj [])⟩

/-- A transport whose every response is a 409 with an empty JSON body. -/
def transport409Empty : Nat → TransportResult := fun _ =>
  .resp ⟨409, some (.obj [])⟩

/-- A transport whose every response is a 409 whose body carries an
`escrow_id`. -/
def transport409WithId : Nat → TransportResult := fun _ =>
  .resp ⟨409, some (.obj [("escrow_id".data, .str "esc-1".data)])⟩

/-- A call that times out on every attempt. -/
def fnTimeout : Nat → Except A2AExc Unit := fun _ => .error .timeoutExc

/-- A call that fails with a transport error once, then succeeds. -/
def fnFailThenOk : Nat → Except A2AExc Nat := fun k =>
  if k = 1 then .error .transportExc else .ok 7

/-- A call that fails with a non-retriable auth error. -/
def fnAuthFail : Nat → Except A2AExc Unit := fun _ => .error .auth

/-- A dialogue with a duplicated speaker, for participant inference. -/
def entriesDup : List NegotiationEntry := [entryBuyer, entrySeller, entryBuyer]

/-- Its build outcome with participants omitted. -/
def built8 : Except BuildError NegotiationTranscript :=
  build_transcript entriesDup compromiseFix none none [] nowFix

/-- The transcript of `built8` (successful branch). -/
def t8 : NegotiationTranscript :=
  match built8 with
  | .ok t => t
  | .error _ => ⟨[], [], [], [], [], [], []⟩

/-! ## Supporting lemmas: the string order and `sortStr` -/

theorem strLe_total (a b : List Char) : strLe a b = true ∨ strLe b a = true := by
  induction a generalizing b with
  | nil => left; rfl
  | cons x xs ih =>
    cases b with
    | nil => right; rfl
    | cons y ys =>
      by_cases h1 : x.toNat < y.toNat
      · left; simp [strLe, h1]
      · by_cases h2 : y.toNat < x.toNat
        · right; simp [strLe, h2]
        · rcases ih ys with h | h
          · left; simp [strLe, h1, h2, h]
          · right; simp [strLe, h1, h2, h]

theorem strLe_trans : ∀ {a b c : List Char},
    strLe a b = true → strLe b c = true → strLe a c = true := by
  intro a
  induction a with
  | nil => intro b c _ _; rfl
  | cons x xs ih =>
    intro b c hab hbc
    cases b with
    | nil => simp [strLe] at hab
    | cons y ys =>
      cases c with
      | nil => simp [strLe] at hbc
      | cons z zs =>
        by_cases hxy : x.toNat < y.toNat
        · by_cases hyz : y.toNat < z.toNat
          · have hxz : x.toNat < z.toNat := by omega
            simp [strLe, hxz]
          · by_cases hzy : z.toNat < y.toNat
            · simp [strLe, hyz, hzy] at hbc
            · have hxz : x.toNat < z.toNat := by omega
              simp [strLe, hxz]
        · by_cases hyx : y.toNat < x.toNat
          · simp [strLe, hxy, hyx] at hab
          · by_cases hyz : y.toNat < z.toNat
            · have hxz : x.toNat < z.toNat := by omega
              simp [strLe, hxz]
            · by_cases hzy : z.toNat < y.toNat
              · simp [strLe, hyz, hzy] at hbc
              · have hxz : ¬ x.toNat < z.toNat := by omega
                have hzx : ¬ z.toNat < x.toNat := by omega
                simp [strLe, hxy, hyx] at hab
                simp [strLe, hyz, hzy] at hbc
                simp [strLe, hxz, hzx]
                exact ih hab hbc

theorem insertStr_perm (a : List Char) (l : List (List Char)) :
    List.Perm (insertStr a l) (a :: l) := by
  induction l with
  | nil => exact List.Perm.refl _
  | cons b bs ih =>
    by_cases h : strLe b a
    · simp only [insertStr, h, if_true]
      exact (ih.cons b).trans (List.Perm.swap a b bs)
    · simp [insertStr, h]

theorem sortStr_perm (l : List (List Char)) : List.Perm (sortStr l) l := by
  induction l with
  | nil => exact List.Perm.refl _
  | cons a as ih => exact (insertStr_perm a (sortStr as)).trans (ih.cons a)

theorem insertStr_pairwise (a : List Char) (l : List (List Char))
    (hl : List.Pairwise (fun u v => strLe u v = true) l) :
    List.Pairwise (fun u v => strLe u v = true) (insertStr a l) := by
  induction l with
  | nil => simp [insertStr]
  | cons b bs ih =>
    rw [List.pairwise_cons] at hl
    obtain ⟨hb, hbs⟩ := hl
    by_cases h : strLe b a
    · simp only [insertStr, h, if_true]
      rw [List.pairwise_cons]
      refine ⟨?_, ih hbs⟩
      intro c hc
      have hc' := (insertStr_perm a bs).mem_iff.mp hc
      rcases List.mem_cons.mp hc' with rfl | hcm
      · exact h
      · exact hb c hcm
    · have hab : strLe a b = true := by
        rcases strLe_total a b with h' | h'
        · exact h'
        · exact absurd h' h
      simp only [insertStr, h]
      rw [if_neg (by simp [h]), List.pairwise_cons]
      refine ⟨?_, List.pairwise_cons.mpr ⟨hb, hbs⟩⟩
      intro c hc
      rcases List.mem_cons.mp hc with rfl | hcm
      · exact hab
      · exact strLe_trans hab (hb c hcm)

theorem sortStr_pairwise (l : List (List Char)) :
    List.Pairwise (fun u v => strLe u v = true) (sortStr l) := by
  induction l with
  | nil => simp [sortStr]
  | cons a as ih => exact insertStr_pairwise a (sortStr as) ih

theorem sortStr_mem (l : List (List Char)) (s : List Char) :
    s ∈ sortStr l ↔ s ∈ l := (sortStr_perm l).mem_iff

theorem sortStr_nodup (l : List (List Char)) (h : l.Nodup) :
    (sortStr l).Nodup := (sortStr_perm l).symm.nodup_iff.mp h

/-! ## Supporting lemmas: the authority guard -/

theorem occursCI_of_variant (p variant text : List Char)
    (hv : lowerStr variant = lowerStr p) (hsub : variant <:+: text) :
    occursCI p text := by
  unfold occursCI
  rw [← hv]
  exact hsub.map asciiLower

theorem firstForbidden_eq_some (text q : List Char)
    (h : firstForbidden text = some q) :
    q ∈ FORBIDDEN_PHRASES ∧ occursCI q text := by
  refine ⟨List.mem_of_find?_eq_some h, ?_⟩
  have h2 := List.find?_some h
  simpa using h2

theorem firstForbidden_eq_none (text : List Char)
    (h : firstForbidden text = none) (q : List Char)
    (hq : q ∈ FORBIDDEN_PHRASES) : ¬ occursCI q text := by
  have h2 := List.find?_eq_none.mp h q hq
  simpa using h2

theorem firstForbidden_some_of (p text : List Char)
    (hp : p ∈ FORBIDDEN_PHRASES) (hocc : occursCI p text) :
    ∃ q, firstForbidden text = some q := by
  cases h : firstForbidden text with
  | none => exact absurd hocc (firstForbidden_eq_none text h p hp)
  | some q => exact ⟨q, rfl⟩

theorem scanEntries_eq_none (idx : Nat) (entries : List NegotiationEntry)
    (h : scanEntries idx entries = none) :
    ∀ e ∈ entries, firstForbidden e.message = none := by
  induction entries generalizing idx with
  | nil => simp
  | cons e rest ih =>
    intro e' he'
    cases hf : firstForbidden e.message with
    | some p => simp [scanEntries, hf] at h
    | none =>
      simp only [scanEntries, hf] at h
      rcases List.mem_cons.mp he' with rfl | hmem
      · exact hf
      · exact ih (idx + 1) h e' hmem

theorem scanEntries_eq_some (idx : Nat) (entries : List NegotiationEntry)
    (err : TranscriptValidationError)
    (h : scanEntries idx entries = some err) :
    ∃ j e q, entries[j]? = some e ∧ err = .entryPhrase (idx + j) e.speaker q ∧
      q ∈ FORBIDDEN_PHRASES ∧ occursCI q e.message := by
  induction entries generalizing idx with
  | nil => simp [scanEntries] at h
  | cons e rest ih =>
    cases hf : firstForbidden e.message with
    | some p =>
      simp only [scanEntries, hf, Option.some.injEq] at h
      refine ⟨0, e, p, by simp, ?_,
        (firstForbidden_eq_some _ _ hf).1, (firstForbidden_eq_some _ _ hf).2⟩
      rw [← h]
      simp
    | none =>
      simp only [scanEntries, hf] at h
      obtain ⟨j, e', q, hj, herr, hq, hocc⟩ := ih (idx + 1) h
      refine ⟨j + 1, e', q, by simpa using hj, ?_, hq, hocc⟩
      rw [herr]
      congr 1
      omega

theorem validate_error_sound (entries : List NegotiationEntry)
    (compromise : List (List Char × Json)) (err : TranscriptValidationError)
    (h : validate_no_execution_authority entries compromise = .error err) :
    guardErrSound entries compromise err := by
  unfold validate_no_execution_authority at h
  cases hs : scanEntries 0 entries with
  | some e0 =>
    rw [hs] at h
    injection h with h
    subst h
    obtain ⟨j, e, q, hj, herr, hq, hocc⟩ := scanEntries_eq_some 0 entries e0 hs
    rw [herr]
    exact ⟨e, by simpa using hj, rfl, hq, hocc⟩
  | none =>
    rw [hs] at h
    cases hf : firstForbidden (dumps false (.obj compromise)) with
    | some p =>
      rw [hf] at h
      injection h with h
      subst h
      exact (firstForbidden_eq_some _ _ hf)
    | none => rw [hf] at h; cases h

theorem validate_error_of_occurs (entries : List NegotiationEntry)
    (compromise : List (List Char × Json)) (p : List Char)
    (hp : p ∈ FORBIDDEN_PHRASES)
    (hocc : (∃ (i : Nat) (e : NegotiationEntry),
              entries[i]? = some e ∧ occursCI p e.message) ∨
            occursCI p (dumps false (.obj compromise))) :
    ∃ err, validate_no_execution_authority entries compromise = .error err := by
  unfold validate_no_execution_authority
  cases hs : scanEntries 0 entries with
  | some e0 => exact ⟨e0, rfl⟩
  | none =>
    rcases hocc with ⟨i, e, hi, hocc⟩ | hocc
    · exfalso
      have hmem : e ∈ entries := by
        have := List.getElem?_eq_some.mp hi
        obtain ⟨hlt, hget⟩ := this
        rw [← hget]
        exact List.getElem_mem hlt
      have hnone := scanEntries_eq_none 0 entries hs e hmem
      exact absurd hocc (firstForbidden_eq_none e.message hnone p hp)
    · obtain ⟨q, hq⟩ := firstForbidden_some_of p _ hp hocc
      rw [hq]
      exact ⟨.compromisePhrase q, rfl⟩

theorem validate_ok_of_clean (entries : List NegotiationEntry)
    (compromise : List (List Char × Json))
    (hscan : scanEntries 0 entries = none)
    (hcomp : firstForbidden (dumps false (.obj compromise)) = none) :
    validate_no_execution_authority entries compromise = .ok () := by
  unfold validate_no_execution_authority
  rw [hscan, hcomp]

/-! ## Supporting lemmas: nonemptiness of the hash and the canonical text -/

theorem hash_transcript_ne_nil (s : List Char) : hash_transcript s ≠ [] := by
  unfold hash_transcript sha256Bytes bytesToHex natBE
  simp [List.range_succ]

theorem dumps_obj_ne_nil (sk : Bool) (kvs : List (List Char × Json)) :
    dumps sk (.obj kvs) ≠ [] := by
  cases sk <;> simp [dumps, sortKeysDeep, dumpsVal]

/-! ## Supporting lemmas: inversion of `build_transcript` -/

theorem build_transcript_ok (entries : List NegotiationEntry)
    (compromise : List (List Char × Json))
    (participants : Option (List (List Char)))
    (session_id : Option (List Char)) (gen now : List Char)
    (t : NegotiationTranscript)
    (h : build_transcript entries compromise participants session_id gen now =
      .ok t) :
    entries ≠ [] ∧
    validate_no_execution_authority entries compromise = .ok () ∧
    t = ⟨resolveSessionId session_id gen, resolveParticipants entries participants,
         entries, compromise, now,
         hash_transcript (dumps true (_build_canonical_dict
           (resolveSessionId session_id gen)
           (resolveParticipants entries participants) entries compromise now)),
         dumps true (_build_canonical_dict (resolveSessionId session_id gen)
           (resolveParticipants entries participants) entries compromise now)⟩ := by
  by_cases hne : entries.isEmpty
  · simp [build_transcript, hne] at h
  · cases hv : validate_no_execution_authority entries compromise with
    | error e => simp [build_transcript, hne, hv] at h
    | ok u =>
      cases u
      simp only [build_transcript, hne, hv, Bool.false_eq_true, if_false,
        Except.ok.injEq] at h
      exact ⟨by simpa [List.isEmpty_iff] using hne, rfl, h.symm⟩

/-! ## Claim C1 -/

/-- C1 (amended: the entry list is nonempty; an empty negotiation fails
earlier with the empty-entries error): for every phrase in the fixed
forbidden list and any ASCII case variation of it, if the variant occurs
as a substring of some entry's message or anywhere in the serialized
compromise mapping, then `build_transcript` fails with a validation error
identifying the offending entry index and speaker or the compromise as
the source and carrying a forbidden phrase occurring there, and no
transcript (no text, no hash) is produced. -/
theorem C1_forbidden_phrase_blocks_build (p variant : List Char)
    (entries : List NegotiationEntry) (compromise : List (List Char × Json))
    (participants : Option (List (List Char)))
    (session_id : Option (List Char)) (gen now : List Char)
    (hp : p ∈ FORBIDDEN_PHRASES)
    (hvar : lowerStr variant = lowerStr p)
    (hne : entries ≠ [])
    (hocc : (∃ (i : Nat) (e : NegotiationEntry),
               entries[i]? = some e ∧ variant <:+: e.message) ∨
            variant <:+: dumps false (.obj compromise)) :
    ∃ err, build_transcript entries compromise participants session_id gen
        now = .error (.validation err) ∧
      guardErrSound entries compromise err := by
  have hocc' : (∃ (i : Nat) (e : NegotiationEntry),
      entries[i]? = some e ∧ occursCI p e.message) ∨
      occursCI p (dumps false (.obj compromise)) := by
    rcases hocc with ⟨i, e, hi, hsub⟩ | hsub
    · exact Or.inl ⟨i, e, hi, occursCI_of_variant p variant _ hvar hsub⟩
    · exact Or.inr (occursCI_of_variant p variant _ hvar hsub)
  obtain ⟨err, herr⟩ := validate_error_of_occurs entries compromise p hp hocc'
  refine ⟨err, ?_, validate_error_sound entries compromise err herr⟩
  have hne' : entries.isEmpty = false := by
    cases entries with
    | nil => exact absurd rfl hne
    | cons a l => rfl
  simp [build_transcript, hne', herr]

/-- C1 counterexample to the claim as stated: with an empty entry list and
a compromise containing the forbidden phrase "settlement approved",
`build_transcript` does not fail with the validation error — it fails with
the empty-entries error raised before the guard runs. -/
theorem C1_counterexample :
    "settlement approved".data ∈ FORBIDDEN_PHRASES ∧
    ("settlement approved".data <:+:
      dumps false (.obj [("note".data, .str "settlement approved".data)])) ∧
    failsWithValidation (build_transcript []
      [("note".data, .str "settlement approved".data)] none none [] []) =
      false ∧
    build_transcript [] [("note".data, .str "settlement approved".data)]
      none none [] [] = .error .emptyEntries :=
  ⟨by decide, by decide, rfl, rfl⟩

/-- C1 witness: a mixed-case "ReLeAsE fUnDs" inside a message makes the
concrete build fail with the guard's validation error. -/
theorem C1_witness :
    failsWithValidation (build_transcript [entryForbidden] compromiseFix
      none none [] nowFix) = true := by
  obtain ⟨err, herr, _⟩ := C1_forbidden_phrase_blocks_build
    "Release Funds".data "ReLeAsE fUnDs".data [entryForbidden] compromiseFix
    none none [] nowFix (by decide) (by decide) (List.cons_ne_nil _ _)
    (Or.inl ⟨0, entryForbidden, by simp, by decide⟩)
  rw [herr]
  rfl

/-! ## Claim C2 -/

/-- C2: `verify_transcript` fails with the missing-data integrity error
when the stored canonical text or the stored digest is empty; otherwise
it recomputes the SHA-256 of the stored text and fails with the
hash-mismatch error carrying the stored and the computed digests when they
differ; otherwise it succeeds; and every transcript returned by
`build_transcript` and left unmodified verifies successfully. -/
theorem C2_verify_spec :
    (∀ t : NegotiationTranscript,
      t.transcript_json = [] ∨ t.transcript_hash = [] →
      verify_transcript t = .error .missingData) ∧
    (∀ t : NegotiationTranscript,
      t.transcript_json ≠ [] → t.transcript_hash ≠ [] →
      hash_transcript t.transcript_json ≠ t.transcript_hash →
      verify_transcript t = .error
        (.hashMismatch t.transcript_hash
          (hash_transcript t.transcript_json))) ∧
    (∀ t : NegotiationTranscript,
      t.transcript_json ≠ [] →
      hash_transcript t.transcript_json = t.transcript_hash →
      verify_transcript t = .ok true) ∧
    (∀ (entries : List NegotiationEntry)
      (compromise : List (List Char × Json))
      (participants : Option (List (List Char)))
      (session_id : Option (List Char)) (gen now : List Char)
      (t : NegotiationTranscript),
      build_transcript entries compromise participants session_id gen now =
        .ok t →
      verify_transcript t = .ok true) := by
  have okCase : ∀ t : NegotiationTranscript,
      t.transcript_json ≠ [] →
      hash_transcript t.transcript_json = t.transcript_hash →
      verify_transcript t = .ok true := by
    intro t h1 h2
    have h3 : t.transcript_hash ≠ [] := h2 ▸ hash_transcript_ne_nil _
    simp [verify_transcript, h1, h3, h2]
  refine ⟨?_, ?_, okCase, ?_⟩
  · intro t h
    simp [verify_transcript, h]
  · intro t h1 h2 h3
    simp [verify_transcript, h1, h2, h3]
  · intro entries compromise participants session_id gen now t h
    obtain ⟨hne, hv, ht⟩ := build_transcript_ok _ _ _ _ _ _ _ h
    have hjson : t.transcript_json ≠ [] := by
      rw [ht]
      show dumps true (_build_canonical_dict _ _ _ _ _) ≠ []
      rw [_build_canonical_dict]
      exact dumps_obj_ne_nil true _
    have hcomp : hash_transcript t.transcript_json = t.transcript_hash := by
      rw [ht]
    exact okCase t hjson hcomp

/-- C2 witness: the sample build verifies; a transcript with empty text
fails with the missing-data error; a tampered digest fails with the
mismatch error carrying both digests. -/
theorem C2_witness :
    builtFix = .ok tFix ∧
    verify_transcript tFix = .ok true ∧
    verify_transcript ⟨[], [], [], [], [], "ab".data, []⟩ =
      .error .missingData ∧
    verify_transcript ⟨[], [], [], [], [], "0".data, "x".data⟩ =
      .error (.hashMismatch "0".data (hash_transcript "x".data)) := by
  have h1 : builtFix = .ok tFix := rfl
  exact ⟨h1,
    C2_verify_spec.2.2.2 entriesFix compromiseFix none (some sidFix) []
      nowFix tFix h1,
    C2_verify_spec.1 _ (Or.inl rfl),
    C2_verify_spec.2.1 _ (by decide) (by decide) (by decide)⟩

/-! ## Claim C8 -/

/-- C8: when the participants argument is omitted, the participants field
of the built transcript equals the sorted deduplication of the entry
speakers — sorted in ascending string order, free of duplicates, and
containing exactly the speakers appearing in the entries. -/
theorem C8_participants_inferred (entries : List NegotiationEntry)
    (compromise : List (List Char × Json)) (session_id : Option (List Char))
    (gen now : List Char) (t : NegotiationTranscript)
    (h : build_transcript entries compromise none session_id gen now =
      .ok t) :
    t.participants = sortStr (entries.map (·.speaker)).dedup ∧
    List.Pairwise (fun u v => strLe u v = true) t.participants ∧
    t.participants.Nodup ∧
    (∀ s, s ∈ t.participants ↔ s ∈ entries.map (·.speaker)) := by
  obtain ⟨hne, hv, ht⟩ := build_transcript_ok _ _ _ _ _ _ _ h
  have hp : t.participants = sortStr (entries.map (·.speaker)).dedup := by
    rw [ht]
    rfl
  refine ⟨hp, ?_, ?_, ?_⟩
  · rw [hp]; exact sortStr_pairwise _
  · rw [hp]; exact sortStr_nodup _ (List.nodup_dedup _)
  · intro s; rw [hp, sortStr_mem, List.mem_dedup]

/-- C8 witness: a dialogue whose speakers repeat yields the two distinct
speakers in sorted order. -/
theorem C8_witness :
    built8 = .ok t8 ∧
    t8.participants = sortStr (entriesDup.map (·.speaker)).dedup ∧
    t8.participants = ["Merchant Agent".data, "Shopping Agent".data] := by
  have h : built8 = .ok t8 := rfl
  exact ⟨h, (C8_participants_inferred entriesDup compromiseFix none []
    nowFix t8 h).1, by decide⟩

/-! ## Claim C9 -/

theorem scanEntries_congr (idx : Nat) {l₁ l₂ : List NegotiationEntry}
    (h : List.Forall₂ sameCore l₁ l₂) :
    scanEntries idx l₁ = scanEntries idx l₂ := by
  induction h generalizing idx with
  | nil => rfl
  | @cons e₁ e₂ r₁ r₂ he _hrest ih =>
    obtain ⟨hspk, _hrole, hmsg, _hts⟩ := he
    simp only [scanEntries, hmsg, hspk]
    cases firstForbidden e₂.message with
    | some p => rfl
    | none => exact ih (idx + 1)

theorem validate_congr {l₁ l₂ : List NegotiationEntry}
    (h : List.Forall₂ sameCore l₁ l₂) (compromise : List (List Char × Json)) :
    validate_no_execution_authority l₁ compromise =
      validate_no_execution_authority l₂ compromise := by
  unfold validate_no_execution_authority
  rw [scanEntries_congr 0 h]

/-- C9: the authority guard's outcome is independent of entry metadata:
for inputs differing only in metadata the guard returns identical results,
and `build_transcript` accepts one exactly when it accepts the other.  In
particular a forbidden phrase placed only in metadata does not block
construction (see the witness). -/
theorem C9_guard_metadata_blind {l₁ l₂ : List NegotiationEntry}
    (h : List.Forall₂ sameCore l₁ l₂) (compromise : List (List Char × Json))
    (participants : Option (List (List Char)))
    (session_id : Option (List Char)) (gen now : List Char) :
    validate_no_execution_authority l₁ compromise =
      validate_no_execution_authority l₂ compromise ∧
    excOk (build_transcript l₁ compromise participants session_id gen now) =
      excOk (build_transcript l₂ compromise participants session_id gen
        now) := by
  refine ⟨validate_congr h compromise, ?_⟩
  cases h with
  | nil => rfl
  | @cons e₁ e₂ r₁ r₂ he hrest =>
    have hv := validate_congr (List.Forall₂.cons he hrest) compromise
    simp only [build_transcript, List.isEmpty_cons, Bool.false_eq_true,
      if_false]
    rw [hv]
    cases validate_no_execution_authority (e₂ :: r₂) compromise with
    | error e => rfl
    | ok u => cases u; rfl

/-- C9 witness: smuggling "Settlement Approved" through metadata leaves
the guard's verdict unchanged, and the build still succeeds. -/
theorem C9_witness :
    validate_no_execution_authority [entryMetaSmuggle] compromiseFix =
      validate_no_execution_authority [entryMetaClean] compromiseFix ∧
    excOk (build_transcript [entryMetaSmuggle] compromiseFix none none []
      nowFix) = true := by
  have hf : List.Forall₂ sameCore [entryMetaSmuggle] [entryMetaClean] :=
    List.Forall₂.cons ⟨rfl, rfl, rfl, rfl⟩ List.Forall₂.nil
  have hm := C9_guard_metadata_blind hf compromiseFix none none [] nowFix
  refine ⟨hm.1, ?_⟩
  rw [hm.2]
  rfl

/-! ## Claim C10 -/

theorem entryJson_congr {e₁ e₂ : NegotiationEntry} (h : metaDefaulted e₁ e₂) :
    entryJson e₁ = entryJson e₂ := by
  obtain ⟨⟨hspk, hrole, hmsg, hts⟩, hmeta⟩ := h
  unfold entryJson
  rw [hspk, hrole, hmsg, hts, hmeta]

theorem entriesJson_congr {l₁ l₂ : List NegotiationEntry}
    (h : List.Forall₂ metaDefaulted l₁ l₂) :
    l₁.map entryJson = l₂.map entryJson := by
  induction h with
  | nil => rfl
  | cons he _hrest ih => simp [entryJson_congr he, ih]

/-- C10: for fixed session id, participants, compromise and creation time,
entry sequences that differ only by carrying metadata `None` against the
empty mapping (the relation collapses metadata with `or .x7b.x7d`, as the
canonicalizer does) produce byte-identical canonical text and equal
hashes. -/
theorem C10_metadata_none_vs_empty {l₁ l₂ : List NegotiationEntry}
    (h : List.Forall₂ metaDefaulted l₁ l₂) (sid : List Char)
    (parts : List (List Char)) (compromise : List (List Char × Json))
    (created : List Char) :
    dumps true (_build_canonical_dict sid parts l₁ compromise created) =
      dumps true (_build_canonical_dict sid parts l₂ compromise created) ∧
    hash_transcript
        (dumps true (_build_canonical_dict sid parts l₁ compromise
          created)) =
      hash_transcript
        (dumps true (_build_canonical_dict sid parts l₂ compromise
          created)) := by
  have hj : _build_canonical_dict sid parts l₁ compromise created =
      _build_canonical_dict sid parts l₂ compromise created := by
    unfold _build_canonical_dict
    rw [entriesJson_congr h]
  exact ⟨by rw [hj], by rw [hj]⟩

/-- C10 witness: the buyer turn with metadata `None` and with the empty
dict canonicalize to the same bytes and the same digest. -/
theorem C10_witness :
    dumps true (_build_canonical_dict sidFix ["Shopping Agent".data]
        [entryBuyer] compromiseFix nowFix) =
      dumps true (_build_canonical_dict sidFix ["Shopping Agent".data]
        [entryBuyerEmptyMeta] compromiseFix nowFix) ∧
    hash_transcript (dumps true (_build_canonical_dict sidFix
        ["Shopping Agent".data] [entryBuyer] compromiseFix nowFix)) =
      hash_transcript (dumps true (_build_canonical_dict sidFix
        ["Shopping Agent".data] [entryBuyerEmptyMeta] compromiseFix
        nowFix)) :=
  C10_metadata_none_vs_empty
    (List.Forall₂.cons ⟨⟨rfl, rfl, rfl, rfl⟩, rfl⟩ List.Forall₂.nil)
    sidFix ["Shopping Agent".data] compromiseFix nowFix

/-! ## Supporting lemmas: single-attempt outcomes of the retry helper -/

theorem withRetries_first_ok {α : Type} (fn : Nat → Except A2AExc α)
    (retries : Nat) (backoff : ℚ) (a : α) (h1 : 1 ≤ retries)
    (hfn : fn 1 = .ok a) :
    (_with_retries fn retries backoff).result = .ok a ∧
    (_with_retries fn retries backoff).calls = 1 := by
  obtain ⟨r, rfl⟩ : ∃ r, retries = r + 1 := ⟨retries - 1, by omega⟩
  simp [_with_retries, withRetriesGo, hfn]

theorem withRetries_first_err {α : Type} (fn : Nat → Except A2AExc α)
    (retries : Nat) (backoff : ℚ) (e : A2AExc) (h1 : 1 ≤ retries)
    (hfn : fn 1 = .error e) (hret : retriable e = false) :
    (_with_retries fn retries backoff).result = .error e := by
  obtain ⟨r, rfl⟩ : ∃ r, retries = r + 1 := ⟨retries - 1, by omega⟩
  simp [_with_retries, withRetriesGo, hfn, hret]

/-! ## Claim C3 -/

/-- C3 (amended: HTTP 409 is excepted from the catch-all — it is treated
as an idempotency collision and raises nothing): the status translation
maps every 2xx to success, 401 to the auth error, 402 to the escrow
error, 404 to the generic settlement error, 422 to the passed validation
class (escrow by default, release for release/cancel operations), every
5xx to the network error, and every other non-success status to the
generic settlement error. -/
theorem C3_status_mapping :
    (∀ (status : Nat) (vclass : Option A2AExc), 200 ≤ status →
      status ≤ 299 → _raise_for_status status vclass = .ok ()) ∧
    (∀ vclass, _raise_for_status 401 vclass = .error .auth) ∧
    (∀ vclass, _raise_for_status 402 vclass = .error .escrowErr) ∧
    (∀ vclass, _raise_for_status 404 vclass = .error .settlement) ∧
    (_raise_for_status 422 none = .error .escrowErr) ∧
    (_raise_for_status 422 (some .releaseErr) = .error .releaseErr) ∧
    (∀ (status : Nat) (vclass : Option A2AExc), 500 ≤ status →
      status ≤ 599 → _raise_for_status status vclass =
        .error (.network none)) ∧
    (∀ (status : Nat) (vclass : Option A2AExc),
      ¬(200 ≤ status ∧ status ≤ 299) → status ≠ 401 → status ≠ 402 →
      status ≠ 404 → status ≠ 409 → status ≠ 422 →
      ¬(500 ≤ status ∧ status ≤ 599) →
      _raise_for_status status vclass = .error .settlement) ∧
    (∀ (st : ClientState) (retries : Nat) (backoff : ℚ) (eid : List Char)
      (b : Option Json) (transport : Nat → TransportResult), 1 ≤ retries →
      (∀ k, transport k = .resp ⟨422, b⟩) →
      releaseOp st transport retries backoff eid = .error .releaseErr ∧
      cancelOp st transport retries backoff eid = .error .releaseErr) ∧
    (∀ (st : ClientState) (retries : Nat) (backoff : ℚ)
      (payer payee : List Char) (amount : ℚ) (task : List Char)
      (b : Option Json) (transport : Nat → TransportResult), 1 ≤ retries →
      (∀ k, transport k = .resp ⟨422, b⟩) →
      escrowOp st transport retries backoff payer payee amount task =
        .error .escrowErr) := by
  refine ⟨?_, ?_, ?_, ?_, rfl, rfl, ?_, ?_, ?_, ?_⟩
  · intro status vclass h1 h2
    unfold _raise_for_status
    rw [if_pos ⟨h1, h2⟩]
  · intro vclass; rfl
  · intro vclass; rfl
  · intro vclass; rfl
  · intro status vclass h1 h2
    unfold _raise_for_status
    rw [if_neg (by omega), if_neg (by omega), if_neg (by omega),
      if_neg (by omega), if_neg (by omega), if_neg (by omega),
      if_pos (by omega)]
  · intro status vclass hsucc h401 h402 h404 h409 h422 h5xx
    unfold _raise_for_status
    rw [if_neg hsucc, if_neg h401, if_neg h402, if_neg h404, if_neg h409,
      if_neg h422, if_neg (by omega)]
  · intro st retries backoff eid b transport h1 htr
    have hcall : opCall (some .releaseErr) (transport 1) =
        .error .releaseErr := by
      rw [htr 1]
      rfl
    have hres := withRetries_first_err
      (fun k => opCall (some .releaseErr) (transport k)) retries backoff
      .releaseErr h1 hcall rfl
    constructor
    · simp only [releaseOp, hres]
      rfl
    · simp only [cancelOp, hres]
      rfl
  · intro st retries backoff payer payee amount task b transport h1 htr
    have hcall : opCall none (transport 1) = .error .escrowErr := by
      rw [htr 1]
      rfl
    have hres := withRetries_first_err (fun k => opCall none (transport k))
      retries backoff .escrowErr h1 hcall rfl
    simp only [escrowOp, hres]
    rfl

/-- C3 counterexample to the claim as stated: 409 is a non-success status
outside the claim's explicit list, yet the translation does not raise the
generic settlement error — the call succeeds silently. -/
theorem C3_counterexample :
    ¬(200 ≤ 409 ∧ 409 ≤ 299) ∧
    _raise_for_status 409 none = .ok () ∧
    _raise_for_status 409 none ≠ .error .settlement :=
  ⟨by omega, rfl, fun h => nomatch h⟩

/-- C3 witness: one concrete status per row of the table. -/
theorem C3_witness :
    _raise_for_status 204 none = .ok () ∧
    _raise_for_status 401 none = .error .auth ∧
    _raise_for_status 402 none = .error .escrowErr ∧
    _raise_for_status 404 none = .error .settlement ∧
    _raise_for_status 422 none = .error .escrowErr ∧
    _raise_for_status 422 (some .releaseErr) = .error .releaseErr ∧
    _raise_for_status 503 none = .error (.network none) ∧
    _raise_for_status 418 none = .error .settlement ∧
    releaseOp ⟨[], []⟩ transport422 3 1 "e1".data = .error .releaseErr ∧
    cancelOp ⟨[], []⟩ transport422 3 1 "e1".data = .error .releaseErr ∧
    escrowOp ⟨[], []⟩ transport422 3 1 "p".data "q".data 5 "t1".data =
      .error .escrowErr :=
  ⟨C3_status_mapping.1 204 none (by omega) (by omega),
   C3_status_mapping.2.1 none,
   C3_status_mapping.2.2.1 none,
   C3_status_mapping.2.2.2.1 none,
   C3_status_mapping.2.2.2.2.1,
   C3_status_mapping.2.2.2.2.2.1,
   C3_status_mapping.2.2.2.2.2.2.1 503 none (by omega) (by omega),
   C3_status_mapping.2.2.2.2.2.2.2.1 418 none (by omega) (by omega)
     (by omega) (by omega) (by omega) (by omega) (by omega),
   (C3_status_mapping.2.2.2.2.2.2.2.2.1 ⟨[], []⟩ 3 1 "e1".data
     (some (.obj [])) transport422 (by omega) (fun k => rfl)).1,
   (C3_status_mapping.2.2.2.2.2.2.2.2.1 ⟨[], []⟩ 3 1 "e1".data
     (some (.obj [])) transport422 (by omega) (fun k => rfl)).2,
   C3_status_mapping.2.2.2.2.2.2.2.2.2 ⟨[], []⟩ 3 1 "p".data "q".data 5
     "t1".data (some (.obj [])) transport422 (by omega) (fun k => rfl)⟩

/-! ## Claim C4 -/

theorem withRetriesGo_step {α : Type} (fn : Nat → Except A2AExc α)
    (retries : Nat) (backoff : ℚ) (n attempt : Nat) (lastE : Option A2AExc)
    (e1 : A2AExc) (hfn : fn attempt = .error e1)
    (hret : retriable e1 = true) :
    withRetriesGo fn retries backoff (n + 1) attempt lastE =
      ⟨(withRetriesGo fn retries backoff n (attempt + 1) (some e1)).result,
       (withRetriesGo fn retries backoff n (attempt + 1) (some e1)).calls + 1,
       (if attempt < retries then [backoff * 2 ^ (attempt - 1)] else []) ++
         (withRetriesGo fn retries backoff n (attempt + 1)
           (some e1)).sleeps⟩ := by
  simp only [withRetriesGo, hfn, hret, if_true]

theorem withRetriesGo_all_fail {α : Type} (fn : Nat → Except A2AExc α)
    (retries : Nat) (backoff : ℚ) (e : A2AExc)
    (hlast : fn retries = .error e) :
    ∀ (remaining attempt : Nat) (lastE : Option A2AExc),
      1 ≤ remaining → 1 ≤ attempt → attempt + remaining = retries + 1 →
      (∀ k, attempt ≤ k → k ≤ retries →
        ∃ e', fn k = .error e' ∧ retriable e' = true) →
      (withRetriesGo fn retries backoff remaining attempt lastE).result =
          .error (.network (some e)) ∧
        (withRetriesGo fn retries backoff remaining attempt lastE).calls =
          remaining ∧
        (withRetriesGo fn retries backoff remaining attempt lastE).sleeps =
          (List.range (remaining - 1)).map
            (fun j => backoff * 2 ^ (attempt - 1 + j)) := by
  intro remaining
  induction remaining with
  | zero => intro attempt lastE h1; omega
  | succ n ih =>
    intro attempt lastE _h1 hatt heq hall
    obtain ⟨e1, hfn1, hret1⟩ := hall attempt (le_refl _) (by omega)
    rw [withRetriesGo_step fn retries backoff n attempt lastE e1 hfn1 hret1]
    cases n with
    | zero =>
      have hend : attempt = retries := by omega
      subst hend
      have he1 : e1 = e := by
        rw [hfn1] at hlast
        injection hlast
      subst he1
      refine ⟨rfl, rfl, ?_⟩
      simp [withRetriesGo]
    | succ m =>
      have hlt : attempt < retries := by omega
      obtain ⟨hres, hcalls, hsleeps⟩ := ih (attempt + 1) (some e1) (by omega)
        (by omega) (by omega) (fun k hk1 hk2 => hall k (by omega) hk2)
      refine ⟨hres, ?_, ?_⟩
      · rw [hcalls]
      · rw [hsleeps, if_pos hlt]
        have hm : m + 1 + 1 - 1 = m + 1 := rfl
        rw [hm, List.range_succ_eq_map, List.map_cons, List.map_map]
        simp only [List.singleton_append, Nat.add_zero]
        congr 1
        apply List.map_congr_left
        intro j _hj
        simp only [Function.comp_apply]
        have hexp : attempt - 1 + (j + 1) = attempt + 1 - 1 + j := by omega
        rw [hexp]

/-- C4: configured with N attempts, the retry helper calls the wrapped
operation exactly N times when every call fails with a transport error or
a network error, then fails with a network error wrapping the last
underlying failure, sleeping `backoff * 2 ^ (k - 1)` before the k-th
retry; a call that fails once with a retriable error and then succeeds
returns the result after exactly 2 attempts; a non-retriable failure
propagates immediately after exactly 1 attempt. -/
theorem C4_retry_policy :
    (∀ {α : Type} (fn : Nat → Except A2AExc α) (retries : Nat)
      (backoff : ℚ) (e : A2AExc), 1 ≤ retries →
      (∀ k, 1 ≤ k → k ≤ retries →
        ∃ e', fn k = .error e' ∧ retriable e' = true) →
      fn retries = .error e →
      (_with_retries fn retries backoff).calls = retries ∧
      (_with_retries fn retries backoff).result =
        .error (.network (some e)) ∧
      (_with_retries fn retries backoff).sleeps =
        (List.range (retries - 1)).map (fun j => backoff * 2 ^ j)) ∧
    (∀ {α : Type} (fn : Nat → Except A2AExc α) (retries : Nat)
      (backoff : ℚ) (e : A2AExc) (a : α), 2 ≤ retries →
      fn 1 = .error e → retriable e = true → fn 2 = .ok a →
      (_with_retries fn retries backoff).result = .ok a ∧
      (_with_retries fn retries backoff).calls = 2) ∧
    (∀ {α : Type} (fn : Nat → Except A2AExc α) (retries : Nat)
      (backoff : ℚ) (e : A2AExc), 1 ≤ retries →
      fn 1 = .error e → retriable e = false →
      (_with_retries fn retries backoff).result = .error e ∧
      (_with_retries fn retries backoff).calls = 1) := by
  refine ⟨?_, ?_, ?_⟩
  · intro α fn retries backoff e h1 hall hlast
    obtain ⟨hres, hcalls, hsleeps⟩ := withRetriesGo_all_fail fn retries
      backoff e hlast retries 1 none h1 (le_refl 1) (by omega) hall
    refine ⟨hcalls, hres, ?_⟩
    have hs : (_with_retries fn retries backoff).sleeps =
        (List.range (retries - 1)).map
          (fun j => backoff * 2 ^ (1 - 1 + j)) := hsleeps
    rw [hs]
    apply List.map_congr_left
    intro j _hj
    norm_num
  · intro α fn retries backoff e a h2 hfn1 hret1 hfn2
    obtain ⟨r, rfl⟩ : ∃ r, retries = r + 2 := ⟨retries - 2, by omega⟩
    constructor
    · simp [_with_retries, withRetriesGo, hfn1, hret1, hfn2]
    · simp [_with_retries, withRetriesGo, hfn1, hret1, hfn2]
  · intro α fn retries backoff e h1 hfn1 hret1
    obtain ⟨r, rfl⟩ : ∃ r, retries = r + 1 := ⟨retries - 1, by omega⟩
    constructor
    · simp [_with_retries, withRetriesGo, hfn1, hret1]
    · simp [_with_retries, withRetriesGo, hfn1, hret1]

/-- C4 witness: with 3 attempts and base delay 1, a transport that always
times out is called exactly 3 times, fails with the network error wrapping
the timeout, and sleeps 1 then 2 seconds; a transport failing once then
succeeding yields the result after exactly 2 attempts; an auth failure
propagates after 1 attempt. -/
theorem C4_witness :
    (_with_retries fnTimeout 3 1).calls = 3 ∧
    (_with_retries fnTimeout 3 1).result =
      .error (.network (some .timeoutExc)) ∧
    (_with_retries fnTimeout 3 1).sleeps = [1, 2] ∧
    (_with_retries fnFailThenOk 3 1).result = .ok 7 ∧
    (_with_retries fnFailThenOk 3 1).calls = 2 ∧
    (_with_retries fnAuthFail 3 1).result = .error .auth ∧
    (_with_retries fnAuthFail 3 1).calls = 1 := by
  obtain ⟨h1, h2, h3⟩ := C4_retry_policy.1 fnTimeout 3 1 .timeoutExc
    (by omega) (fun k _ _ => ⟨.timeoutExc, rfl, rfl⟩) rfl
  obtain ⟨h4, h5⟩ := C4_retry_policy.2.1 fnFailThenOk 3 1 .transportExc 7
    (by omega) rfl rfl rfl
  obtain ⟨h6, h7⟩ := C4_retry_policy.2.2 fnAuthFail 3 1 .auth (by omega)
    rfl rfl
  refine ⟨h1, h2, ?_, h4, h5, h6, h7⟩
  rw [h3]
  norm_num [List.range_succ]

/-! ## Claim C5 -/

/-- C5 (amended): `_raise_for_status` treats every 409 as a silent
success for every operation class; on a 409 response with a JSON object
body, release and cancel then complete normally; escrow, however, next
reads `escrow_id` out of the body outside the `try` block: it completes
normally when the key is present and raises a bare `KeyError` when it is
absent. -/
theorem C5_idempotency_collision :
    (∀ vclass, _raise_for_status 409 vclass = .ok ()) ∧
    (∀ (st : ClientState) (retries : Nat) (backoff : ℚ)
      (body : List (List Char × Json)) (eid : List Char)
      (transport : Nat → TransportResult), 1 ≤ retries →
      (∀ k, transport k = .resp ⟨409, some (.obj body)⟩) →
      excOk (releaseOp st transport retries backoff eid) = true ∧
      excOk (cancelOp st transport retries backoff eid) = true) ∧
    (∀ (st : ClientState) (retries : Nat) (backoff : ℚ)
      (body : List (List Char × Json)) (payer payee : List Char)
      (amount : ℚ) (task : List Char)
      (transport : Nat → TransportResult), 1 ≤ retries →
      (∀ k, transport k = .resp ⟨409, some (.obj body)⟩) →
      (∀ kv, body.find? (fun m => m.1 == "escrow_id".data) = some kv →
        excOk (escrowOp st transport retries backoff payer payee amount
          task) = true) ∧
      (body.find? (fun m => m.1 == "escrow_id".data) = none →
        escrowOp st transport retries backoff payer payee amount task =
          .error (.keyErrorExc "escrow_id".data))) := by
  refine ⟨fun vclass => rfl, ?_, ?_⟩
  · intro st retries backoff body eid transport h1 htr
    have hcall : opCall (some .releaseErr) (transport 1) =
        .ok (.obj body) := by
      rw [htr 1]
      rfl
    have hrel := withRetries_first_ok
      (fun k => opCall (some .releaseErr) (transport k)) retries backoff
      (.obj body) h1 hcall
    have hcan := withRetries_first_ok
      (fun k => opCall (some .releaseErr) (transport k)) retries backoff
      (.obj body) h1 hcall
    constructor
    · simp only [releaseOp, hrel.1]
      rfl
    · simp only [cancelOp, hcan.1]
      rfl
  · intro st retries backoff body payer payee amount task transport h1 htr
    have hcall : opCall none (transport 1) = .ok (.obj body) := by
      rw [htr 1]
      rfl
    have hesc := withRetries_first_ok (fun k => opCall none (transport k))
      retries backoff (.obj body) h1 hcall
    constructor
    · intro kv hkv
      simp only [escrowOp, hesc.1, jsonGetItem, hkv]
      rfl
    · intro hnone
      simp only [escrowOp, hesc.1, jsonGetItem, hnone]

/-- C5 counterexample to the claim as stated: escrow on a 409 whose body
lacks `escrow_id` raises a bare `KeyError` instead of completing
normally. -/
theorem C5_counterexample :
    escrowOp ⟨[], []⟩ transport409Empty 3 1 "p".data "q".data 5
      "t1".data = .error (.keyErrorExc "escrow_id".data) := rfl

/-- C5 witness: 409 never raises in the translation; release and cancel
complete normally on an empty 409 body; escrow completes normally on a
409 body that carries `escrow_id`. -/
theorem C5_witness :
    _raise_for_status 409 none = .ok () ∧
    excOk (releaseOp ⟨[], []⟩ transport409Empty 3 1 "e1".data) = true ∧
    excOk (cancelOp ⟨[], []⟩ transport409Empty 3 1 "e1".data) = true ∧
    excOk (escrowOp ⟨[], []⟩ transport409WithId 3 1 "p".data "q".data 5
      "t1".data) = true := by
  obtain ⟨hrel, hcan⟩ := C5_idempotency_collision.2.1 ⟨[], []⟩ 3 1 []
    "e1".data transport409Empty (by omega) (fun k => rfl)
  have hesc := (C5_idempotency_collision.2.2 ⟨[], []⟩ 3 1
    [("escrow_id".data, .str "esc-1".data)] "p".data "q".data 5 "t1".data
    transport409WithId (by omega) (fun k => rfl)).1
    ("escrow_id".data, .str "esc-1".data) rfl
  exact ⟨C5_idempotency_collision.1 none, hrel, hcan, hesc⟩

/-! ## Claim C6 -/

/-- C6: for the session ledger with escrows of 10, 20 and 5, released
results for the first two escrow ids and a cancelled result for the
third, the session summary reports total_escrowed = 35,
total_released = 30, total_cancelled = 5 (escrowed minus released) and
cancelled_count = 1. -/
theorem C6_ledger_accuracy :
    (get_session_receipts ledgerFix).total_escrowed = 35 ∧
    (get_session_receipts ledgerFix).total_released = 30 ∧
    (get_session_receipts ledgerFix).total_cancelled = 5 ∧
    (get_session_receipts ledgerFix).cancelled_count = 1 := by
  have he : (get_session_receipts ledgerFix).total_escrowed =
      ([10, 20, 5] : List ℚ).sum := rfl
  have hr : (get_session_receipts ledgerFix).total_released =
      ([10, 20] : List ℚ).sum := rfl
  have hc : (get_session_receipts ledgerFix).total_cancelled =
      ([10, 20, 5] : List ℚ).sum - ([10, 20] : List ℚ).sum := rfl
  refine ⟨?_, ?_, ?_, rfl⟩
  · rw [he]; norm_num [List.sum_cons, List.sum_nil]
  · rw [hr]; norm_num [List.sum_cons, List.sum_nil]
  · rw [hc]; norm_num [List.sum_cons, List.sum_nil]

/-! ## Claim C7 -/

/-- C7 (amended): when release or cancel succeeds for an escrow
identifier, the stored receipts are not mutated — the receipts list is
returned unchanged, every receipt keeping its status — and instead a new
`SettlementResult` carrying that escrow identifier and the status
released resp. cancelled is appended to the session results. -/
theorem C7_release_cancel_ledger (st : ClientState)
    (transport : Nat → TransportResult) (retries : Nat) (backoff : ℚ)
    (eid : List Char) (st' : ClientState) (res : SettlementResult) :
    (releaseOp st transport retries backoff eid = .ok (st', res) →
      st'._session_receipts = st._session_receipts ∧
      st'._session_results = st._session_results ++ [res] ∧
      res.escrow_id = eid ∧ res.status = "released".data) ∧
    (cancelOp st transport retries backoff eid = .ok (st', res) →
      st'._session_receipts = st._session_receipts ∧
      st'._session_results = st._session_results ++ [res] ∧
      res.escrow_id = eid ∧ res.status = "cancelled".data) := by
  constructor
  · intro h
    simp only [releaseOp] at h
    cases hres : (_with_retries
        (fun k => opCall (some .releaseErr) (transport k)) retries
        backoff).result with
    | error e => rw [hres] at h; exact (Except.noConfusion h)
    | ok data =>
      rw [hres] at h
      injection h with h
      obtain ⟨rfl, rfl⟩ := Prod.mk.injEq .. |>.mp h.symm |>.imp Eq.symm
        Eq.symm
      exact ⟨rfl, rfl, rfl, rfl⟩
  · intro h
    simp only [cancelOp] at h
    cases hres : (_with_retries
        (fun k => opCall (some .releaseErr) (transport k)) retries
        backoff).result with
    | error e => rw [hres] at h; exact (Except.noConfusion h)
    | ok data =>
      rw [hres] at h
      injection h with h
      obtain ⟨rfl, rfl⟩ := Prod.mk.injEq .. |>.mp h.symm |>.imp Eq.symm
        Eq.symm
      exact ⟨rfl, rfl, rfl, rfl⟩

/-- C7 counterexample to the claim as stated: after a successful release
for the stored escrow id `e1`, the stored receipt still carries status
"escrowed" — nothing was mutated in place. -/
theorem C7_counterexample :
    excOk rel7 = true ∧
    receiptStatusesAfter rel7 = ["escrowed".data] := ⟨rfl, rfl⟩

/-- C7 witness: the concrete release against the one-receipt ledger
appends its result and leaves the receipts untouched. -/
theorem C7_witness :
    releaseOp st7 transport200Release 3 1 "e1".data = .ok (st7R, res7R) ∧
    st7R._session_receipts = st7._session_receipts ∧
    st7R._session_results = st7._session_results ++ [res7R] ∧
    res7R.status = "released".data := by
  have h : releaseOp st7 transport200Release 3 1 "e1".data =
      .ok (st7R, res7R) := rfl
  obtain ⟨h1, h2, _h3, h4⟩ := (C7_release_cancel_ledger st7
    transport200Release 3 1 "e1".data st7R res7R).1 h
  exact ⟨h, h1, h2, h4⟩
